import Mathlib

/-!
Verification of the nvim-rpc client library: a shallow embedding of the
RPC frame codec (`rpc.rs`), the call multiplexer (`client.rs`), the inbound
handlers (`handler.rs`), the value adapter (`api/convert.rs`) and the API
generator's partitioning and name-mangling passes (`genapi/src/main.rs`),
together with theorems settling the specification's claims about them.
-/

/-- Model of `rmpv::Value`, the MessagePack value lattice the library is
built on.  Floats are carried as opaque 64-bit patterns; integers as
unbounded `Int` (rmpv's `Integer` holds an `i64` or a `u64`).  A string
models rmpv's `Utf8String`, which stores raw bytes off the wire that need
not be valid UTF-8: `valid` records whether `as_str()` succeeds and `s`
is the decoded content when it does (for an invalid string `s` merely
tags the raw-byte state). -/
inductive Value where
  | nil
  | boolean (b : Bool)
  | int (i : Int)
  | f64 (bits : Nat)
  | str (valid : Bool) (s : String)
  | bin (bytes : List Nat)
  | array (items : List Value)
  | map (entries : List (Value × Value))
  | ext (tag : Int) (payload : List Nat)

/-- rmpv's `Value::as_u64`: defined exactly on non-negative integers. -/
def Value.asU64 : Value → Option Nat
  | .int i => if 0 ≤ i then some i.toNat else none
  | _ => none

/-- rmpv's `impl Index<usize> for Value`: indexing a non-array value or
indexing out of bounds yields `Nil` rather than panicking. -/
def valueIndex : Value → Nat → Value
  | .array xs, i => xs.getD i .nil
  | _, _ => .nil

/-- The `RpcMessage` enum of `rpc.rs`: the three msgpack-RPC frame kinds. -/
inductive RpcMessage where
  | rpcRequest (msgid : Nat) (method : String) (params : List Value)
  | rpcResponse (msgid : Nat) (error : Value) (result : Value)
  | rpcNotification (method : String) (params : List Value)

/-- Outcome of running a piece of Rust code that may panic (`unwrap`),
return an `Err(Error::...)` with a message, or succeed. -/
inductive PResult (α : Type) where
  | panic
  | error (msg : String)
  | ok (a : α)

def PResult.bind {α β : Type} : PResult α → (α → PResult β) → PResult β
  | .panic, _ => .panic
  | .error e, _ => .error e
  | .ok a, f => f a

/-- The `try_int!` macro of `rpc.rs`: matches `Value::Integer(_)` and then
runs `as_u64().unwrap()`, which panics on a negative integer; every other
variant is a `DecodingError`. -/
def try_int (v : Value) : PResult Nat :=
  match v with
  | .int i => if 0 ≤ i then .ok i.toNat else .panic
  | _ => .error "RPC element not a string"

/-- The `try_str!` macro of `rpc.rs`: matches `Value::String(_)` and then
runs `as_str().unwrap()`, which panics when the string's bytes are not
valid UTF-8; every other variant is a `DecodingError`. -/
def try_str (v : Value) : PResult String :=
  match v with
  | .str valid s => if valid then .ok s else .panic
  | _ => .error "RPC element not a string"

/-- The `try_arr!` macro of `rpc.rs`. -/
def try_arr (v : Value) : PResult (List Value) :=
  match v with
  | .array xs => .ok xs
  | _ => .error "RPC element is not an array"

/-- `rpc::decode`, after the initial msgpack read has produced a `Value`:
checks the value is an array, classifies on `arr[0].as_u64()` and extracts
the positional fields with the `try_*` macros. -/
def decode (arr : Value) : PResult RpcMessage :=
  match arr with
  | .array _ =>
    match Value.asU64 (valueIndex arr 0) with
    | some 0 =>
      (try_int (valueIndex arr 1)).bind fun msgid =>
      (try_str (valueIndex arr 2)).bind fun method =>
      (try_arr (valueIndex arr 3)).bind fun params =>
      .ok (.rpcRequest msgid method params)
    | some 1 =>
      (try_int (valueIndex arr 1)).bind fun msgid =>
      .ok (.rpcResponse msgid (valueIndex arr 2) (valueIndex arr 3))
    | some 2 =>
      (try_str (valueIndex arr 1)).bind fun method =>
      (try_arr (valueIndex arr 2)).bind fun params =>
      .ok (.rpcNotification method params)
    | _ => .error "RPC message does not contain type"
  | _ => .error "RPC message must be an array"

/-- The whole of `rpc::decode` including its first line
`decode::read_value(reader).unwrap()`: the input is the outcome of the
msgpack byte-level parse (`none` when the byte stream is not a well-formed
msgpack value), and the `unwrap` turns a parse failure into a panic. -/
def decodeRead (parsed : Option Value) : PResult RpcMessage :=
  match parsed with
  | none => .panic
  | some v => decode v

/-- `rpc::encode`: the single msgpack array value built by the
`args_as_value!` macro and written (then flushed) to the transport. -/
def encode : RpcMessage → Value
  | .rpcRequest msgid method params =>
      .array [.int 0, .int msgid, .str true method, .array params]
  | .rpcResponse msgid error result =>
      .array [.int 1, .int msgid, error, result]
  | .rpcNotification method params =>
      .array [.int 2, .str true method, .array params]

/-- C4: for every frame, encoding and then decoding returns the original
frame (integer widening is absorbed by the unbounded integer model). -/
theorem decode_encode_roundtrip (m : RpcMessage) : decode (encode m) = .ok m := by
  cases m <;>
    simp [encode, decode, valueIndex, Value.asU64, try_int, try_str, try_arr,
      PResult.bind, List.getD]

/-- The `Value::String(_)` constructor test (valid or not). -/
def Value.isStr : Value → Bool
  | .str _ _ => true
  | _ => false

/-- A msgpack string whose bytes are valid UTF-8 (`as_str()` succeeds). -/
def Value.isValidStr : Value → Bool
  | .str true _ => true
  | _ => false

def Value.isArr : Value → Bool
  | .array _ => true
  | _ => false

def Value.isNonnegInt : Value → Bool
  | .int i => decide (0 ≤ i)
  | _ => false

def Value.isInt : Value → Bool
  | .int _ => true
  | _ => false

/-- Exactly when the decoder panics: the msgpack byte read failed (the
`unwrap` on `read_value`); or the frame is a type-0/type-1 array whose id
position holds a negative integer (the `unwrap` inside `try_int!`); or
the method position — position 2 of a type-0 array whose id already
passed `try_int!`, position 1 of a type-2 array — holds a msgpack string
whose bytes are not valid UTF-8 (the `unwrap` inside `try_str!`). -/
def decodePanicCond (parsed : Option Value) : Bool :=
  match parsed with
  | none => true
  | some v =>
    v.isArr
      && ((Value.asU64 (valueIndex v 0) == some 0
            && (((valueIndex v 1).isInt && !(valueIndex v 1).isNonnegInt)
              || ((valueIndex v 1).isNonnegInt && (valueIndex v 2).isStr
                  && !(valueIndex v 2).isValidStr)))
        || (Value.asU64 (valueIndex v 0) == some 1
            && (valueIndex v 1).isInt && !(valueIndex v 1).isNonnegInt)
        || (Value.asU64 (valueIndex v 0) == some 2
            && (valueIndex v 1).isStr && !(valueIndex v 1).isValidStr))

/-- The claim's notion of a well-shaped frame: a msgpack array whose first
element is 0, 1 or 2 and whose positional fields (read with msgpack
`Nil`-defaulting) have the corresponding types — string positions must
hold valid UTF-8. -/
def wellShapedFrame (parsed : Option Value) : Bool :=
  match parsed with
  | none => false
  | some v =>
    v.isArr
      && ((Value.asU64 (valueIndex v 0) == some 0
            && (valueIndex v 1).isNonnegInt && (valueIndex v 2).isValidStr
            && (valueIndex v 3).isArr)
        || (Value.asU64 (valueIndex v 0) == some 1
            && (valueIndex v 1).isNonnegInt)
        || (Value.asU64 (valueIndex v 0) == some 2
            && (valueIndex v 1).isValidStr && (valueIndex v 2).isArr))

theorem isArr_array (xs : List Value) : (Value.array xs).isArr = true := rfl

theorem try_int_panic_iff (v : Value) :
    try_int v = .panic ↔ (v.isInt = true ∧ v.isNonnegInt = false) := by
  cases v <;> simp [try_int, Value.isInt, Value.isNonnegInt] <;>
    split <;> simp_all

theorem try_int_ok_iff (v : Value) :
    (∃ n, try_int v = .ok n) ↔ v.isNonnegInt = true := by
  cases v <;> simp [try_int, Value.isInt, Value.isNonnegInt] <;>
    split <;> simp_all

theorem try_int_error_iff (v : Value) :
    (∃ e, try_int v = .error e) ↔ v.isInt = false := by
  cases v <;> simp [try_int, Value.isInt] <;> split <;> simp_all

theorem isNonnegInt_false_of_not_int (v : Value) (h : v.isInt = false) :
    v.isNonnegInt = false := by
  cases v <;> simp_all [Value.isInt, Value.isNonnegInt]

theorem try_str_panic_iff (v : Value) :
    try_str v = .panic ↔ (v.isStr = true ∧ v.isValidStr = false) := by
  rcases v with _ | b | i | bits | ⟨_ | _, s⟩ | bytes | items | entries |
    ⟨tag, payload⟩ <;> simp [try_str, Value.isStr, Value.isValidStr]

theorem try_str_ok_iff (v : Value) :
    (∃ s, try_str v = .ok s) ↔ v.isValidStr = true := by
  rcases v with _ | b | i | bits | ⟨_ | _, s⟩ | bytes | items | entries |
    ⟨tag, payload⟩ <;> simp [try_str, Value.isValidStr]

theorem try_str_error_iff (v : Value) :
    (∃ e, try_str v = .error e) ↔ v.isStr = false := by
  rcases v with _ | b | i | bits | ⟨_ | _, s⟩ | bytes | items | entries |
    ⟨tag, payload⟩ <;> simp [try_str, Value.isStr]

theorem isValidStr_false_of_not_str (v : Value) (h : v.isStr = false) :
    v.isValidStr = false := by
  cases v <;> simp_all [Value.isStr, Value.isValidStr]

theorem try_arr_ne_panic (v : Value) : try_arr v ≠ .panic := by
  cases v <;> simp [try_arr]

theorem try_arr_ok_iff (v : Value) :
    (∃ xs, try_arr v = .ok xs) ↔ v.isArr = true := by
  cases v <;> simp [try_arr, Value.isArr]

theorem decode_array_zero (xs : List Value)
    (h0 : Value.asU64 (valueIndex (Value.array xs) 0) = some 0) :
    decode (Value.array xs) =
      (try_int (valueIndex (Value.array xs) 1)).bind fun msgid =>
      (try_str (valueIndex (Value.array xs) 2)).bind fun method =>
      (try_arr (valueIndex (Value.array xs) 3)).bind fun params =>
      .ok (.rpcRequest msgid method params) := by
  simp only [decode]
  rw [h0]

theorem decode_array_one (xs : List Value)
    (h0 : Value.asU64 (valueIndex (Value.array xs) 0) = some 1) :
    decode (Value.array xs) =
      (try_int (valueIndex (Value.array xs) 1)).bind fun msgid =>
      .ok (.rpcResponse msgid (valueIndex (Value.array xs) 2)
        (valueIndex (Value.array xs) 3)) := by
  simp only [decode]
  rw [h0]

theorem decode_array_two (xs : List Value)
    (h0 : Value.asU64 (valueIndex (Value.array xs) 0) = some 2) :
    decode (Value.array xs) =
      (try_str (valueIndex (Value.array xs) 1)).bind fun method =>
      (try_arr (valueIndex (Value.array xs) 2)).bind fun params =>
      .ok (.rpcNotification method params) := by
  simp only [decode]
  rw [h0]

theorem decode_array_none (xs : List Value)
    (h0 : Value.asU64 (valueIndex (Value.array xs) 0) = none) :
    decode (Value.array xs) = .error "RPC message does not contain type" := by
  simp only [decode]
  rw [h0]

theorem decode_array_other (xs : List Value) (n : Nat)
    (h0 : Value.asU64 (valueIndex (Value.array xs) 0) = some (n + 3)) :
    decode (Value.array xs) = .error "RPC message does not contain type" := by
  simp only [decode]
  rw [h0]
  split <;> simp_all

/-- C3 (amended): the decoder classifies every input, returning a frame
exactly on well-shaped arrays and a `DecodingError` otherwise, except
that it panics exactly when the byte stream is not a well-formed msgpack
value or when the id position of a type-0/1 array holds a negative
integer. -/
theorem decode_total_characterisation (parsed : Option Value) :
    (decodeRead parsed = .panic ↔ decodePanicCond parsed = true) ∧
    ((∃ m, decodeRead parsed = .ok m) ↔ wellShapedFrame parsed = true) := by
  cases parsed with
  | none => simp [decodeRead, decodePanicCond, wellShapedFrame]
  | some v =>
    simp only [decodeRead, decodePanicCond, wellShapedFrame]
    cases v with
    | array xs =>
      rcases h0 : Value.asU64 (valueIndex (Value.array xs) 0) with _ | n
      · rw [decode_array_none xs h0]
        simp [h0, isArr_array]
      · rcases n with _ | _ | _ | n
        · -- first element 0: a request frame
          rw [decode_array_zero xs h0]
          rcases h1 : try_int (valueIndex (Value.array xs) 1) with _ | e | msgid
          · have h := (try_int_panic_iff _).mp h1
            simp [PResult.bind, h0, isArr_array, h.1, h.2]
          · have hInt : (valueIndex (Value.array xs) 1).isInt = false :=
              (try_int_error_iff _).mp ⟨e, h1⟩
            have hNn := isNonnegInt_false_of_not_int _ hInt
            simp [PResult.bind, h0, isArr_array, hInt, hNn]
          · have hNn : (valueIndex (Value.array xs) 1).isNonnegInt = true :=
              (try_int_ok_iff _).mp ⟨msgid, h1⟩
            rcases h2 : try_str (valueIndex (Value.array xs) 2) with _ | e | s
            · have h := (try_str_panic_iff _).mp h2
              simp [PResult.bind, h0, isArr_array, hNn, h.1, h.2]
            · have hStr : (valueIndex (Value.array xs) 2).isStr = false :=
                (try_str_error_iff _).mp ⟨e, h2⟩
              have hVal := isValidStr_false_of_not_str _ hStr
              simp [PResult.bind, h0, isArr_array, hNn, hStr, hVal]
            · have hVal : (valueIndex (Value.array xs) 2).isValidStr = true :=
                (try_str_ok_iff _).mp ⟨s, h2⟩
              rcases h3 : try_arr (valueIndex (Value.array xs) 3) with _ | e | ps
              · exact absurd h3 (try_arr_ne_panic _)
              · have hArr : (valueIndex (Value.array xs) 3).isArr = false := by
                  rcases hc : (valueIndex (Value.array xs) 3) <;>
                    simp_all [try_arr, Value.isArr]
                simp [PResult.bind, h0, isArr_array, hNn, hVal, hArr]
              · have hArr : (valueIndex (Value.array xs) 3).isArr = true :=
                  (try_arr_ok_iff _).mp ⟨ps, h3⟩
                simp [PResult.bind, h0, isArr_array, hNn, hVal, hArr]
        · -- first element 1: a response frame
          rw [decode_array_one xs h0]
          rcases h1 : try_int (valueIndex (Value.array xs) 1) with _ | e | msgid
          · have h := (try_int_panic_iff _).mp h1
            simp [PResult.bind, h0, isArr_array, h.1, h.2]
          · have hInt : (valueIndex (Value.array xs) 1).isInt = false :=
              (try_int_error_iff _).mp ⟨e, h1⟩
            have hNn := isNonnegInt_false_of_not_int _ hInt
            simp [PResult.bind, h0, isArr_array, hInt, hNn]
          · have hNn : (valueIndex (Value.array xs) 1).isNonnegInt = true :=
              (try_int_ok_iff _).mp ⟨msgid, h1⟩
            simp [PResult.bind, h0, isArr_array, hNn]
        · -- first element 2: a notification frame
          rw [decode_array_two xs h0]
          rcases h1 : try_str (valueIndex (Value.array xs) 1) with _ | e | s
          · have h := (try_str_panic_iff _).mp h1
            simp [PResult.bind, h0, isArr_array, h.1, h.2]
          · have hStr : (valueIndex (Value.array xs) 1).isStr = false :=
              (try_str_error_iff _).mp ⟨e, h1⟩
            have hVal := isValidStr_false_of_not_str _ hStr
            simp [PResult.bind, h0, isArr_array, hStr, hVal]
          · have hVal : (valueIndex (Value.array xs) 1).isValidStr = true :=
              (try_str_ok_iff _).mp ⟨s, h1⟩
            rcases h2 : try_arr (valueIndex (Value.array xs) 2) with _ | e | ps
            · exact absurd h2 (try_arr_ne_panic _)
            · have hArr : (valueIndex (Value.array xs) 2).isArr = false := by
                rcases hc : (valueIndex (Value.array xs) 2) <;>
                  simp_all [try_arr, Value.isArr]
              simp [PResult.bind, h0, isArr_array, hVal, hArr]
            · have hArr : (valueIndex (Value.array xs) 2).isArr = true :=
                (try_arr_ok_iff _).mp ⟨ps, h2⟩
              simp [PResult.bind, h0, isArr_array, hVal, hArr]
        · -- first element is an integer other than 0, 1, 2
          rw [decode_array_other xs n h0]
          simp [h0, isArr_array]
    | nil => simp [decode, Value.isArr]
    | boolean b => simp [decode, Value.isArr]
    | int i => simp [decode, Value.isArr]
    | f64 bits => simp [decode, Value.isArr]
    | str valid s => simp [decode, Value.isArr]
    | bin bs => simp [decode, Value.isArr]
    | map es => simp [decode, Value.isArr]
    | ext t p => simp [decode, Value.isArr]

/-- C3 (counterexample): the decoder is not panic-free.  A response frame
whose id is the integer -1 makes `as_u64().unwrap()` panic; a byte stream
that is not a msgpack value makes `read_value(..).unwrap()` panic; and a
notification frame whose method position is a msgpack string with
invalid UTF-8 bytes makes `as_str().unwrap()` panic. -/
theorem decode_panics_on_negative_id :
    decodeRead (some (.array [.int 1, .int (-1), .nil, .nil])) = .panic ∧
      decodeRead none = .panic ∧
      decodeRead (some (.array [.int 2, .str false "", .array []])) =
        .panic := by
  refine ⟨rfl, rfl, rfl⟩

/-- The `Error` enum of `error.rs` (each variant carries its message). -/
inductive Error where
  | connectionError (s : String)
  | decodingError (s : String)
  | encodingError (s : String)
  | timeoutError (s : String)
  | mpscError (s : String)
  | notImplemented (s : String)
deriving DecidableEq

/-- The `Display` impl of `error.rs`: every variant prints its inner
string. -/
def Error.display : Error → String
  | .connectionError s => s
  | .decodingError s => s
  | .encodingError s => s
  | .timeoutError s => s
  | .mpscError s => s
  | .notImplemented s => s

/-- The `From<Error> for Value` impl of `error.rs`: the stringified
error. -/
def Value.fromError (e : Error) : Value := .str true (Error.display e)

/-- The default `RequestHandler::handle_request` of `handler.rs`: always
`Err(NotImplemented(method))`. -/
def handle_request_default (msgid : Nat) (method : String)
    (params : List Value) : Except Error Value :=
  Except.error (.notImplemented method)

/-- The mutable state of `Client` (`client.rs`): the reader half (an
`Option`, taken at event-loop start; its payload is an opaque token), the
pending-call table from request id to single-shot sender (the `Bool`
records whether the paired receiver is still alive), and the id counter. -/
structure Client where
  reader : Option Nat
  handles : List (Nat × Bool)
  msg_counter : Nat

/-- `Client::find_sender`: `handles.lock().unwrap().remove(&msgid).unwrap()`
— the second `unwrap` panics when no sender is registered for `msgid`. -/
def find_sender (handles : List (Nat × Bool)) (msgid : Nat) :
    PResult (Bool × List (Nat × Bool)) :=
  match handles.lookup msgid with
  | some alive => .ok (alive, handles.eraseP (fun p => p.1 == msgid))
  | none => .panic

/-- The `RpcResponse` arm of `Client::dispatch_read_thread`: look the
sender up (panicking when absent), compute the outcome —
`Err(MpscError("Error in RPC response"))` when the frame's error field is
not nil, `Ok(result)` otherwise — and `send(..).unwrap()`, which panics
when the receiver was already dropped. -/
def dispatch_response (handles : List (Nat × Bool)) (msgid : Nat)
    (error result : Value) :
    PResult (List (Nat × Bool) × Except Error Value) :=
  match find_sender handles msgid with
  | .panic => .panic
  | .error e => .error e
  | .ok (alive, rest) =>
    let outcome : Except Error Value :=
      match error with
      | .nil => .ok result
      | _ => .error (.mpscError "Error in RPC response")
    if alive then .ok (rest, outcome) else .panic

/-- The `RpcRequest` arm of `Client::dispatch_read_thread`: run the
request handler and write back one `RpcResponse` frame with the same id,
the error side populated (stringified) on handler failure. -/
def dispatch_request
    (handler : Nat → String → List Value → Except Error Value)
    (msgid : Nat) (method : String) (params : List Value) : RpcMessage :=
  match handler msgid method params with
  | .ok result => .rpcResponse msgid .nil result
  | .error e => .rpcResponse msgid (Value.fromError e) .nil

/-- `Client::start_event_loop`: `self.reader.take().unwrap()` hands the
reader half to the spawned thread; `take` leaves `None` behind and the
`unwrap` panics when the reader was already taken. -/
def start_event_loop (c : Client) : PResult (Client × Nat) :=
  match c.reader with
  | some r => .ok ({ c with reader := none }, r)
  | none => .panic

/-- One observation of `receiver.try_recv()` in the wait loop of
`Client::call`. -/
inductive TryRecv where
  | empty
  | disconnected
  | received (v : Except Error Value)

/-- The wait loop of `Client::call`: poll `try_recv`; on `Empty` sleep
~1 ms and return a `TimeoutError` once the elapsed wall clock reaches one
second (1000 ms); on `Disconnected` return an `MpscError`; on delivery
return the delivered outcome.  `polls i` is the i-th observation,
`elapsedMs i` the elapsed milliseconds at the i-th deadline check, and
`fuel` bounds the number of iterations modelled (`none` = still looping). -/
def recv_loop (polls : Nat → TryRecv) (elapsedMs : Nat → Nat) :
    Nat → Nat → Option (Except Error Value)
  | 0, _ => none
  | fuel + 1, i =>
    match polls i with
    | .received v => some v
    | .disconnected =>
        some (.error (.mpscError
          "Channel disconnected while waiting for RPC response"))
    | .empty =>
        if 1000 ≤ elapsedMs i then
          some (.error (.timeoutError "Timeout when waiting for RPC response"))
        else
          recv_loop polls elapsedMs fuel (i + 1)

/-- `Client::call`: assign `msgid` from the counter and bump it, insert
`(msgid, sender)` into the pending table (the caller never removes it),
encode and write the request frame, then run the wait loop.  Returns the
frame written, the client state after the call, and the loop outcome. -/
def call (c : Client) (method : String) (args : List Value)
    (polls : Nat → TryRecv) (elapsedMs : Nat → Nat) (fuel : Nat) :
    RpcMessage × Client × Option (Except Error Value) :=
  let msgid := c.msg_counter
  let c' : Client := { c with msg_counter := msgid + 1,
                              handles := (msgid, true) :: c.handles }
  (.rpcRequest msgid method args, c', recv_loop polls elapsedMs fuel 0)

theorem recv_loop_timeout (polls : Nat → TryRecv) (elapsedMs : Nat → Nat)
    (hp : ∀ j, polls j = .empty) (he : ∀ j, j + 1 ≤ elapsedMs j) :
    ∀ fuel i, 1 ≤ fuel → 1000 ≤ fuel + i →
      recv_loop polls elapsedMs fuel i =
        some (.error (.timeoutError "Timeout when waiting for RPC response")) := by
  intro fuel
  induction fuel with
  | zero => intro i h1 _; omega
  | succ f ih =>
    intro i _ hsum
    rw [recv_loop, hp i]
    by_cases hel : 1000 ≤ elapsedMs i
    · simp [hel]
    · have hi : i + 1 ≤ elapsedMs i := he i
      have : i ≤ 998 := by omega
      simp only [hel, if_false]
      exact ih (i + 1) (by omega) (by omega)

/-- C5: when no response is ever delivered (`try_recv` is always empty),
`call` returns the `TimeoutError` once the 1-second deadline has elapsed
(~1 ms-sleep polling), and the pending-table entry for the call's id is
still in place afterwards. -/
theorem call_timeout (c : Client) (method : String) (args : List Value)
    (polls : Nat → TryRecv) (elapsedMs : Nat → Nat) (fuel : Nat)
    (hp : ∀ j, polls j = .empty) (he : ∀ j, j + 1 ≤ elapsedMs j)
    (hf : 1000 ≤ fuel) :
    (call c method args polls elapsedMs fuel).2.2 =
        some (.error (.timeoutError "Timeout when waiting for RPC response")) ∧
      (c.msg_counter, true) ∈
        (call c method args polls elapsedMs fuel).2.1.handles := by
  constructor
  · exact recv_loop_timeout polls elapsedMs hp he fuel 0 (by omega) (by omega)
  · simp [call]

theorem call_timeout_witness :
    (call ⟨some 0, [], 0⟩ "ping" [] (fun _ => .empty) (fun j => j + 1)
        1000).2.2 =
        some (.error (.timeoutError "Timeout when waiting for RPC response")) ∧
      (0, true) ∈
        (call ⟨some 0, [], 0⟩ "ping" [] (fun _ => .empty) (fun j => j + 1)
          1000).2.1.handles :=
  call_timeout ⟨some 0, [], 0⟩ "ping" [] (fun _ => .empty) (fun j => j + 1)
    1000 (fun _ => rfl) (fun j => Nat.le_refl _) (by decide)

/-- C1 (counterexample): the reader does not forward the frame's error
value to the caller — two responses with different non-nil error values
produce the identical outcome `Err(MpscError("Error in RPC response"))`,
so the caller cannot receive `ProtocolError(v)` with `v` the frame's
error value. -/
theorem dispatch_response_discards_error_value :
    dispatch_response [(0, true)] 0 (.str true "bad") .nil =
        dispatch_response [(0, true)] 0 (.str true "worse") .nil ∧
      dispatch_response [(0, true)] 0 (.str true "bad") .nil =
        .ok ([], .error (.mpscError "Error in RPC response")) := by
  constructor <;> rfl

/-- C1 (amended): for a response whose id has a live pending sender, the
caller receives `Ok(result)` when the frame's error field is nil, and
`Err(MpscError("Error in RPC response"))` — the error value itself being
discarded — when it is not nil; the pending entry is removed. -/
theorem dispatch_response_outcome (handles : List (Nat × Bool)) (msgid : Nat)
    (error result : Value) (h : handles.lookup msgid = some true) :
    (error = .nil → dispatch_response handles msgid error result =
        .ok (handles.eraseP (fun p => p.1 == msgid), .ok result)) ∧
      (error ≠ .nil → dispatch_response handles msgid error result =
        .ok (handles.eraseP (fun p => p.1 == msgid),
          .error (.mpscError "Error in RPC response"))) := by
  constructor
  · intro hnil
    subst hnil
    simp [dispatch_response, find_sender, h]
  · intro hnn
    cases error <;> simp_all [dispatch_response, find_sender, h]

theorem dispatch_response_outcome_witness :
    dispatch_response [(0, true)] 0 (.str true "bad") .nil =
      .ok ([], .error (.mpscError "Error in RPC response")) :=
  (dispatch_response_outcome [(0, true)] 0 (.str true "bad") .nil rfl).2
    (fun h => Value.noConfusion h)

/-- C2 (counterexample): a late response does panic the reader.  With no
sender registered for the id, `find_sender`'s `unwrap` panics; with a
sender registered but its receiver dropped (the timed-out caller has
returned), `send(..).unwrap()` panics. -/
theorem dispatch_response_panics_no_sender :
    dispatch_response [] 0 .nil .nil = .panic ∧
      dispatch_response [(7, false)] 7 .nil .nil = .panic := by
  constructor <;> rfl

/-- C2 (amended): the reader worker panics on a response frame exactly
when the id has no registered sender (the `unwrap` in `find_sender`) or
the registered receiver has been dropped (the `unwrap` on `send`); it
never discards such a frame silently. -/
theorem dispatch_response_panic_iff (handles : List (Nat × Bool))
    (msgid : Nat) (error result : Value) :
    dispatch_response handles msgid error result = .panic ↔
      (handles.lookup msgid = none ∨ handles.lookup msgid = some false) := by
  unfold dispatch_response find_sender
  rcases h : handles.lookup msgid with _ | alive
  · simp
  · cases alive <;> simp

/-- C6: an inbound request handled by the default handler is answered by
exactly one response frame carrying the same id, a nil result, and the
stringified `NotImplemented(method)` — that is, the method name itself —
in the error field. -/
theorem dispatch_request_default (msgid : Nat) (method : String)
    (params : List Value) :
    dispatch_request handle_request_default msgid method params =
      .rpcResponse msgid (.str true method) .nil := by
  simp [dispatch_request, handle_request_default, Value.fromError,
    Error.display]

/-- C10: the first `start_event_loop` takes the reader half out of the
client (leaving `None`), and calling it a second time on the same client
panics on the `unwrap` of the absent reader. -/
theorem start_event_loop_twice_panics (c : Client) (r : Nat)
    (h : c.reader = some r) :
    start_event_loop c = .ok ({ c with reader := none }, r) ∧
      start_event_loop { c with reader := none } = .panic := by
  constructor
  · simp [start_event_loop, h]
  · simp [start_event_loop]

theorem start_event_loop_twice_panics_witness :
    start_event_loop ⟨some 5, [], 0⟩ = .ok (⟨none, [], 0⟩, 5) ∧
      start_event_loop ⟨none, [], 0⟩ = .panic :=
  start_event_loop_twice_panics ⟨some 5, [], 0⟩ 5 rfl

/-- The `AsValue` trait of `api/convert.rs`: convert a native object into
a wire `Value`. -/
class AsValue (α : Type) where
  convert : α → Value

/-- `impl_asvalue!(i64)`: `Value::from(*self)`. -/
instance : AsValue Int := ⟨fun i => .int i⟩

/-- `impl_asvalue!(u64)`. -/
instance : AsValue Nat := ⟨fun n => .int n⟩

/-- `impl_asvalue!(bool)`. -/
instance : AsValue Bool := ⟨fun b => .boolean b⟩

/-- The `AsValue` impl for `String`. -/
instance : AsValue String := ⟨fun s => .str true s⟩

/-- The `AsValue` impl for `Vec<Value>`. -/
instance : AsValue (List Value) := ⟨fun xs => .array xs⟩

/-- The `AsValue` impl for `Vec<(Value, Value)>`: a map value. -/
instance : AsValue (List (Value × Value)) := ⟨fun xs => .map xs⟩

/-- `impl_asvalue_tuple!(i64, i64)`: the macro body is `Value::from(0)`,
independent of the tuple's components. -/
instance : AsValue (Int × Int) := ⟨fun _ => .int 0⟩

/-- C9: the value adapter converts every `(i64, i64)` tuple to the
msgpack integer 0 — never to an array holding the two components — so a
call argument supplied as such a tuple is transmitted as the integer 0. -/
theorem asvalue_tuple_is_zero (a b : Int) :
    AsValue.convert (a, b) = Value.int 0 ∧
      ∀ xs : List Value, AsValue.convert (a, b) ≠ Value.array xs := by
  refine ⟨rfl, ?_⟩
  intro xs h
  have h' : Value.int 0 = Value.array xs := h
  exact Value.noConfusion h'

/-- The MessagePack/Rust type lattice `Type` of `genapi/src/main.rs`
(`Type` is reserved in Lean, so the enum is named `RpcType`). -/
inductive RpcType where
  | UNIT
  | I64
  | F64
  | BOOL
  | STRING
  | VALUE
  | VEC (t : RpcType)
  | TUPLE (ts : List RpcType)
  | BUFFER
  | TABPAGE
  | WINDOW

/-- The `Parameter` struct of `genapi/src/main.rs`. -/
structure Parameter where
  name : String
  parameter_type : RpcType

/-- The `Function` struct of `genapi/src/main.rs`: one manifest function
entry as the generator keeps it. -/
structure Function where
  name : String
  since : Option Nat
  deprecated_since : Option Nat
  parameters : List Parameter
  return_type : RpcType
  method : Bool

/-- Rust's `str::starts_with`, on the underlying character sequence. -/
def starts_with (s pat : String) : Bool :=
  pat.data.isPrefixOf s.data

/-- One iteration of the partitioning loop in `generate_api`: a
non-deprecated entry is pushed onto the group selected by the first
matching name test (`nvim_buf_`, then `nvim_tabpage_`, then `nvim_win_`,
otherwise the global `Nvim` group); a deprecated entry is dropped.  The
tuple components are the `buffer`, `nvim`, `tabpage` and `window` groups
in the order they are declared in `generate_api`. -/
def groups_step
    (acc : List Function × List Function × List Function × List Function)
    (f : Function) :
    List Function × List Function × List Function × List Function :=
  if f.deprecated_since.isNone then
    if starts_with f.name "nvim_buf_" then
      (acc.1 ++ [f], acc.2.1, acc.2.2.1, acc.2.2.2)
    else if starts_with f.name "nvim_tabpage_" then
      (acc.1, acc.2.1, acc.2.2.1 ++ [f], acc.2.2.2)
    else if starts_with f.name "nvim_win_" then
      (acc.1, acc.2.1, acc.2.2.1, acc.2.2.2 ++ [f])
    else
      (acc.1, acc.2.1 ++ [f], acc.2.2.1, acc.2.2.2)
  else acc

/-- The partitioning loop of `generate_api` over the manifest entries. -/
def generate_api_groups (functions : List Function) :
    List Function × List Function × List Function × List Function :=
  functions.foldl groups_step ([], [], [], [])

/-- A kept entry of the `Buffer` group: not deprecated and
`nvim_buf_`-prefixed. -/
def keptBuf (f : Function) : Bool :=
  f.deprecated_since.isNone && starts_with f.name "nvim_buf_"

/-- A kept entry of the `Tabpage` group. -/
def keptTab (f : Function) : Bool :=
  f.deprecated_since.isNone && starts_with f.name "nvim_tabpage_"

/-- A kept entry of the `Window` group. -/
def keptWin (f : Function) : Bool :=
  f.deprecated_since.isNone && starts_with f.name "nvim_win_"

/-- A kept entry of the global `Nvim` group: all other kept names. -/
def keptNvim (f : Function) : Bool :=
  f.deprecated_since.isNone && !starts_with f.name "nvim_buf_"
    && !starts_with f.name "nvim_tabpage_" && !starts_with f.name "nvim_win_"

theorem isPrefixOf_comparable (s p q : List Char)
    (hp : p.isPrefixOf s = true) (hq : q.isPrefixOf s = true) :
    p.isPrefixOf q = true ∨ q.isPrefixOf p = true := by
  induction s generalizing p q with
  | nil =>
    cases p with
    | nil => left; simp [List.isPrefixOf]
    | cons a as => simp [List.isPrefixOf] at hp
  | cons c cs ih =>
    cases p with
    | nil => left; simp [List.isPrefixOf]
    | cons a as =>
      cases q with
      | nil => right; simp [List.isPrefixOf]
      | cons b bs =>
        simp only [List.isPrefixOf, Bool.and_eq_true, beq_iff_eq] at hp hq ⊢
        obtain ⟨hac, has⟩ := hp
        obtain ⟨hbc, hbs⟩ := hq
        subst hac
        subst hbc
        rcases ih as bs has hbs with h | h
        · exact Or.inl ⟨rfl, h⟩
        · exact Or.inr ⟨rfl, h⟩

theorem starts_with_excl (s p q : String)
    (h1 : p.data.isPrefixOf q.data = false)
    (h2 : q.data.isPrefixOf p.data = false)
    (hp : starts_with s p = true) : starts_with s q = false := by
  by_contra h
  have hq : starts_with s q = true := by
    revert h
    cases starts_with s q <;> simp
  rcases isPrefixOf_comparable s.data p.data q.data hp hq with hc | hc
  · rw [h1] at hc; cases hc
  · rw [h2] at hc; cases hc

theorem buf_not_tab (s : String) (h : starts_with s "nvim_buf_" = true) :
    starts_with s "nvim_tabpage_" = false :=
  starts_with_excl s "nvim_buf_" "nvim_tabpage_" (by decide) (by decide) h

theorem buf_not_win (s : String) (h : starts_with s "nvim_buf_" = true) :
    starts_with s "nvim_win_" = false :=
  starts_with_excl s "nvim_buf_" "nvim_win_" (by decide) (by decide) h

theorem tab_not_buf (s : String) (h : starts_with s "nvim_tabpage_" = true) :
    starts_with s "nvim_buf_" = false :=
  starts_with_excl s "nvim_tabpage_" "nvim_buf_" (by decide) (by decide) h

theorem tab_not_win (s : String) (h : starts_with s "nvim_tabpage_" = true) :
    starts_with s "nvim_win_" = false :=
  starts_with_excl s "nvim_tabpage_" "nvim_win_" (by decide) (by decide) h

theorem win_not_buf (s : String) (h : starts_with s "nvim_win_" = true) :
    starts_with s "nvim_buf_" = false :=
  starts_with_excl s "nvim_win_" "nvim_buf_" (by decide) (by decide) h

theorem win_not_tab (s : String) (h : starts_with s "nvim_win_" = true) :
    starts_with s "nvim_tabpage_" = false :=
  starts_with_excl s "nvim_win_" "nvim_tabpage_" (by decide) (by decide) h

theorem foldl_groups (fs : List Function)
    (b n t w : List Function) :
    fs.foldl groups_step (b, n, t, w) =
      (b ++ fs.filter keptBuf, n ++ fs.filter keptNvim,
        t ++ fs.filter keptTab, w ++ fs.filter keptWin) := by
  induction fs generalizing b n t w with
  | nil => simp
  | cons f rest ih =>
    rw [List.foldl_cons]
    by_cases h1 : f.deprecated_since.isNone
    · by_cases h2 : starts_with f.name "nvim_buf_"
      · have ht := buf_not_tab f.name h2
        have hw := buf_not_win f.name h2
        simp [groups_step, h1, h2, ht, hw, ih, keptBuf, keptNvim, keptTab,
          keptWin, List.filter_cons]
      · by_cases h3 : starts_with f.name "nvim_tabpage_"
        · have hw := tab_not_win f.name h3
          simp [groups_step, h1, h2, h3, hw, ih, keptBuf, keptNvim, keptTab,
            keptWin, List.filter_cons]
        · by_cases h4 : starts_with f.name "nvim_win_"
          · simp [groups_step, h1, h2, h3, h4, ih, keptBuf, keptNvim,
              keptTab, keptWin, List.filter_cons]
          · simp [groups_step, h1, h2, h3, h4, ih, keptBuf, keptNvim,
              keptTab, keptWin, List.filter_cons]
    · simp [groups_step, h1, ih, keptBuf, keptNvim, keptTab, keptWin,
        List.filter_cons]

theorem kept_exactly_one (f : Function) (h : f.deprecated_since = none) :
    (keptBuf f = true ∧ keptNvim f = false ∧ keptTab f = false
        ∧ keptWin f = false) ∨
      (keptBuf f = false ∧ keptNvim f = true ∧ keptTab f = false
        ∧ keptWin f = false) ∨
      (keptBuf f = false ∧ keptNvim f = false ∧ keptTab f = true
        ∧ keptWin f = false) ∨
      (keptBuf f = false ∧ keptNvim f = false ∧ keptTab f = false
        ∧ keptWin f = true) := by
  by_cases h2 : starts_with f.name "nvim_buf_"
  · have ht := buf_not_tab f.name h2
    have hw := buf_not_win f.name h2
    left
    simp [keptBuf, keptNvim, keptTab, keptWin, h, h2, ht, hw]
  · by_cases h3 : starts_with f.name "nvim_tabpage_"
    · have hw := tab_not_win f.name h3
      right; right; left
      simp [keptBuf, keptNvim, keptTab, keptWin, h, h2, h3, hw]
    · by_cases h4 : starts_with f.name "nvim_win_"
      · right; right; right
        simp [keptBuf, keptNvim, keptTab, keptWin, h, h2, h3, h4]
      · right; left
        simp [keptBuf, keptNvim, keptTab, keptWin, h, h2, h3, h4]

/-- Membership in exactly one of the four generated groups. -/
def inExactlyOneGroup (f : Function)
    (g : List Function × List Function × List Function × List Function) :
    Prop :=
  (f ∈ g.1 ∨ f ∈ g.2.1 ∨ f ∈ g.2.2.1 ∨ f ∈ g.2.2.2) ∧
    ¬(f ∈ g.1 ∧ f ∈ g.2.1) ∧ ¬(f ∈ g.1 ∧ f ∈ g.2.2.1) ∧
    ¬(f ∈ g.1 ∧ f ∈ g.2.2.2) ∧ ¬(f ∈ g.2.1 ∧ f ∈ g.2.2.1) ∧
    ¬(f ∈ g.2.1 ∧ f ∈ g.2.2.2) ∧ ¬(f ∈ g.2.2.1 ∧ f ∈ g.2.2.2)

/-- C7: the generator drops exactly the entries whose `deprecated_since`
is present, and partitions every remaining entry by name test —
`nvim_buf_` names to the Buffer group, `nvim_tabpage_` to Tabpage,
`nvim_win_` to Window, everything else to Nvim — with each kept entry in
exactly one group. -/
theorem generate_api_partition (fs : List Function) (f : Function)
    (hmem : f ∈ fs) (hkept : f.deprecated_since = none) :
    generate_api_groups fs =
        (fs.filter keptBuf, fs.filter keptNvim, fs.filter keptTab,
          fs.filter keptWin) ∧
      inExactlyOneGroup f (generate_api_groups fs) := by
  have hG : generate_api_groups fs =
      (fs.filter keptBuf, fs.filter keptNvim, fs.filter keptTab,
        fs.filter keptWin) := by
    have h := foldl_groups fs [] [] [] []
    simpa [generate_api_groups] using h
  refine ⟨hG, ?_⟩
  rw [hG]
  unfold inExactlyOneGroup
  rcases kept_exactly_one f hkept with ⟨b1, b2, b3, b4⟩ | ⟨b1, b2, b3, b4⟩ |
    ⟨b1, b2, b3, b4⟩ | ⟨b1, b2, b3, b4⟩ <;>
    simp [List.mem_filter, hmem, b1, b2, b3, b4]

theorem generate_api_partition_witness :
    generate_api_groups
        [⟨"nvim_buf_set_mark", none, none, [], RpcType.UNIT, true⟩] =
        ([⟨"nvim_buf_set_mark", none, none, [], RpcType.UNIT, true⟩].filter
            keptBuf,
          [⟨"nvim_buf_set_mark", none, none, [], RpcType.UNIT, true⟩].filter
            keptNvim,
          [⟨"nvim_buf_set_mark", none, none, [], RpcType.UNIT, true⟩].filter
            keptTab,
          [⟨"nvim_buf_set_mark", none, none, [], RpcType.UNIT, true⟩].filter
            keptWin) ∧
      inExactlyOneGroup
        ⟨"nvim_buf_set_mark", none, none, [], RpcType.UNIT, true⟩
        (generate_api_groups
          [⟨"nvim_buf_set_mark", none, none, [], RpcType.UNIT, true⟩]) :=
  generate_api_partition
    [⟨"nvim_buf_set_mark", none, none, [], RpcType.UNIT, true⟩]
    ⟨"nvim_buf_set_mark", none, none, [], RpcType.UNIT, true⟩
    (by simp) rfl

/-- Rust's `str::strip_prefix`: `Some` of the remainder when the pattern
is a prefix of the string, `None` otherwise. -/
def rust_strip (s pat : String) : Option String :=
  if pat.data.isPrefixOf s.data then
    some (String.mk (s.data.drop pat.data.length))
  else none

/-- `strip_prefix` of `genapi/src/main.rs`: strips `pre` off the function
name when present (keeping the name unchanged otherwise), and retains
only the parameters whose name differs from `param` — the filter removes
every parameter named `param`, wherever it occurs. -/
def strip_prefix (f : Function) (pre param : String) : Function :=
  { f with
      name :=
        match rust_strip f.name pre with
        | some n => n
        | none => f.name,
      parameters := f.parameters.filter (fun x => x.name != param) }

/-- `change_keywords` of `genapi/src/main.rs`: parameters named `fn` or
`type` are renamed to the raw identifiers. -/
def change_keywords (f : Function) : Function :=
  { f with
      parameters := f.parameters.map (fun x =>
        if x.name = "fn" then { x with name := "r#fn" }
        else if x.name = "type" then { x with name := "r#type" }
        else x) }

/-- The per-group method list rendered by `save_functions`: every entry
is prefix-stripped and keyword-cleaned before templating. -/
def save_functions_list (pre param : String) (fs : List Function) :
    List Function :=
  fs.map (fun x => change_keywords ( strip_prefix x pre param))

/-- C8 (counterexample): the handle-parameter removal is not limited to
the leading parameter.  A `nvim_buf_` function with a later parameter
that is also named `buffer` loses both: the emitted parameter list is
`[x]`, not the claimed `[x, buffer]`. -/
theorem strip_removes_all_matching_params :
    ( strip_prefix
        ⟨"nvim_buf_overwrite", none, none,
          [⟨"buffer", RpcType.BUFFER⟩, ⟨"x", RpcType.I64⟩,
            ⟨"buffer", RpcType.I64⟩],
          RpcType.UNIT, true⟩
        "nvim_buf_" "buffer").parameters = [⟨"x", RpcType.I64⟩] ∧
      ([⟨"x", RpcType.I64⟩] : List Parameter) ≠
        [⟨"x", RpcType.I64⟩, ⟨"buffer", RpcType.I64⟩] := by
  constructor
  · rfl
  · intro h
    simpa using congrArg List.length h

/-- C8 (amended): for each emitted method the group prefix is stripped
off the manifest name when present, and every parameter whose name
equals the handle parameter's name is removed — not only the leading
handle parameter; all other parameters are preserved in order. -/
theorem strip_spec (f : Function) (pre param : String)
    (h : starts_with f.name pre = true) :
    ( strip_prefix f pre param).name =
        String.mk (f.name.data.drop pre.data.length) ∧
      ( strip_prefix f pre param).parameters =
        f.parameters.filter (fun x => x.name != param) := by
  refine ⟨?_, rfl⟩
  have h' : pre.data.isPrefixOf f.name.data = true := h
  simp [ strip_prefix, rust_strip, h']

theorem strip_spec_witness :
    ( strip_prefix
        ⟨"nvim_buf_get_mark", none, none,
          [⟨"buffer", RpcType.BUFFER⟩, ⟨"name", RpcType.STRING⟩],
          RpcType.UNIT, true⟩
        "nvim_buf_" "buffer").name =
        String.mk ("nvim_buf_get_mark".data.drop "nvim_buf_".data.length) ∧
      ( strip_prefix
        ⟨"nvim_buf_get_mark", none, none,
          [⟨"buffer", RpcType.BUFFER⟩, ⟨"name", RpcType.STRING⟩],
          RpcType.UNIT, true⟩
        "nvim_buf_" "buffer").parameters =
        [⟨"buffer", RpcType.BUFFER⟩,
          ⟨"name", RpcType.STRING⟩].filter (fun x => x.name != "buffer") :=
  strip_spec
    ⟨"nvim_buf_get_mark", none, none,
      [⟨"buffer", RpcType.BUFFER⟩, ⟨"name", RpcType.STRING⟩],
      RpcType.UNIT, true⟩
    "nvim_buf_" "buffer" rfl
